import Mathlib

/-!
Verification of the inference orchestration and accounting layer of the
devika repository: the project state store (`src/state.py`), the token
accounting module and dispatcher (`src/llm/llm.py`).

Shallow embedding conventions:
* The SQL table `agent_state` (one row per project holding a JSON-encoded
  state stack) is modelled as a list of rows `(project, stack)` in insertion
  order; `select ... first()` is first-match lookup, `session.add` appends
  a row, `session.delete` removes rows.
* Python `int` token counts are Lean `Int`; money amounts (Python floats)
  are `ℚ`.
* The tiktoken encoder is external; token counting is an abstract parameter
  `count : String → Nat`.
* Timestamps come from the clock; they are passed as an explicit parameter.
* Wall-clock times in the bounded executor's polling loop are modelled in
  tenths of a second (`Nat`), so Python `int(elapsed_time)` is `t / 10`.
-/

/-- One state snapshot, as built by `AgentState.new_state` in
`src/state.py` (the `browser_session` / `terminal_session` sub-dicts are
flattened into fields). -/
structure StateSnapshot where
  internal_monologue : String
  browser_url : Option String
  browser_screenshot : Option String
  terminal_command : Option String
  terminal_output : Option String
  terminal_title : Option String
  step : Int
  message : Option String
  completed : Bool
  agent_is_active : Bool
  token_usage : Int
  timestamp : String
deriving Repr, DecidableEq

/-- `AgentState.new_state` (src/state.py lines 25-45): the default snapshot;
`ts` is the current-time string produced by `datetime.now().strftime`. -/
def new_state (ts : String) : StateSnapshot :=
  { internal_monologue := ""
    browser_url := none
    browser_screenshot := none
    terminal_command := none
    terminal_output := none
    terminal_title := none
    step := 0
    message := none
    completed := false
    agent_is_active := true
    token_usage := 0
    timestamp := ts }

/-- The `agent_state` table: rows `(project, state_stack)` in insertion
order. Several rows may share a project name (as in the SQL table);
queries take the first match. -/
abbrev AgentStateDB := List (String × List StateSnapshot)

/-- `session.exec(select(...).where(project == p)).first()`. -/
def firstRow (p : String) : AgentStateDB → Option (String × List StateSnapshot)
  | [] => none
  | r :: rest => if r.1 = p then some r else firstRow p rest

/-- Rewrite the stack of the first row whose project is `p`, leaving
everything else in place (the row object mutated in the session). -/
def updateFirstRow (p : String) (f : List StateSnapshot → List StateSnapshot) :
    AgentStateDB → AgentStateDB
  | [] => []
  | r :: rest =>
    if r.1 = p then (r.1, f r.2) :: rest else r :: updateFirstRow p f rest

/-- Python `state_stack[-1] = state`. On an empty list the source raises
`IndexError`; that branch is unreachable because stacks are never empty. -/
def setLast (st : StateSnapshot) : List StateSnapshot → List StateSnapshot
  | [] => []
  | [_] => [st]
  | x :: y :: rest => x :: setLast st (y :: rest)

/-- Python `state_stack[-1][field] = ...` / `+= ...`: mutate the last
element in place. On an empty list the source raises `IndexError`; that
branch is unreachable because stacks are never empty. -/
def modifyLast (f : StateSnapshot → StateSnapshot) :
    List StateSnapshot → List StateSnapshot
  | [] => []
  | [x] => [f x]
  | x :: y :: rest => x :: modifyLast f (y :: rest)

/-- `AgentState.create_state` (src/state.py lines 47-55): builds a fresh
snapshot with `step = 1` and the starting monologue, and `session.add`s a
new row holding the one-element stack. -/
def create_state (ts p : String) (db : AgentStateDB) : AgentStateDB :=
  db ++ [(p, [{ new_state ts with
                  step := 1
                  internal_monologue := "I'm starting the work..." }])]

/-- `AgentState.delete_state` (src/state.py lines 57-64): deletes every row
of the project. -/
def delete_state (p : String) (db : AgentStateDB) : AgentStateDB :=
  db.filter (fun r => ¬ r.1 = p)

/-- `AgentState.add_to_current_state` (src/state.py lines 66-80): append to
the existing stack, or create the row with a one-element stack. -/
def add_to_current_state (p : String) (st : StateSnapshot)
    (db : AgentStateDB) : AgentStateDB :=
  match firstRow p db with
  | some _ => updateFirstRow p (fun s => s ++ [st]) db
  | none => db ++ [(p, [st])]

/-- `AgentState.get_current_state` (src/state.py lines 82-88). -/
def get_current_state (p : String) (db : AgentStateDB) :
    Option (List StateSnapshot) :=
  (firstRow p db).map (·.2)

/-- `AgentState.update_latest_state` (src/state.py lines 90-104): overwrite
the last element, or create the row with a one-element stack. -/
def update_latest_state (p : String) (st : StateSnapshot)
    (db : AgentStateDB) : AgentStateDB :=
  match firstRow p db with
  | some _ => updateFirstRow p (setLast st) db
  | none => db ++ [(p, [st])]

/-- `AgentState.get_latest_state` (src/state.py lines 106-112):
`state_stack[-1]` of the project's row, if any. -/
def get_latest_state (p : String) (db : AgentStateDB) : Option StateSnapshot :=
  (firstRow p db).bind (fun r => r.2.getLast?)

/-- `AgentState.set_agent_active` (src/state.py lines 114-129). -/
def set_agent_active (ts p : String) (b : Bool) (db : AgentStateDB) :
    AgentStateDB :=
  match firstRow p db with
  | some _ => updateFirstRow p (modifyLast fun t => { t with agent_is_active := b }) db
  | none => db ++ [(p, [{ new_state ts with agent_is_active := b }])]

/-- `AgentState.set_agent_completed` (src/state.py lines 139-155). Note:
the existing-row branch sets both the completion monologue and the
`completed` flag on the top element; the auto-vivify branch sets only
`completed` on a fresh default snapshot (source lines 150-151). -/
def set_agent_completed (ts p : String) (b : Bool) (db : AgentStateDB) :
    AgentStateDB :=
  match firstRow p db with
  | some _ =>
    updateFirstRow p
      (modifyLast fun t =>
        { t with internal_monologue := "Agent has completed the task."
                 completed := b }) db
  | none => db ++ [(p, [{ new_state ts with completed := b }])]

/-- `AgentState.update_token_usage` (src/state.py lines 165-179):
`state_stack[-1]["token_usage"] += token_usage` on the existing row, or
auto-vivify with `token_usage = token_usage`. -/
def update_token_usage (ts p : String) (n : Int) (db : AgentStateDB) :
    AgentStateDB :=
  match firstRow p db with
  | some _ => updateFirstRow p (modifyLast fun t => { t with token_usage := t.token_usage + n }) db
  | none => db ++ [(p, [{ new_state ts with token_usage := n }])]

/-- `AgentState.get_latest_token_usage` (src/state.py lines 181-187):
`state_stack[-1]["token_usage"]`, or 0 when the project has no row. The
inner `none` branch (empty stack) would raise in the source and is
unreachable because stacks are never empty. -/
def get_latest_token_usage (p : String) (db : AgentStateDB) : Int :=
  match firstRow p db with
  | some r =>
    match r.2.getLast? with
    | some st => st.token_usage
    | none => 0
  | none => 0

/-- A per-model rate entry of the token accounting rate table
(src/llm/llm.py lines 32-39). Float rates are modelled as rationals. -/
structure ModelRate where
  input_per_token : ℚ
  output_per_token : ℚ
  currency : String
deriving Repr, DecidableEq

/-- `DEFAULT_MODEL_RATES` (src/llm/llm.py lines 32-39):
0.00025 = 1/4000 and 0.0005 = 1/2000. -/
def DEFAULT_MODEL_RATES : List (String × ModelRate) :=
  [("Gemini 2.5 Pro", { input_per_token := 1/4000, output_per_token := 1/2000, currency := "USD" })]

/-- The zero-cost default rate built in `TokenAccountingModule.__init__`
(src/llm/llm.py line 61). -/
def zero_default_rate : ModelRate :=
  { input_per_token := 0, output_per_token := 0, currency := "USD" }

/-- The configuration of a `TokenAccountingModule` (src/llm/llm.py lines
41-64); the log-file path and lock are I/O plumbing and not modelled. -/
structure TokenAccountingModule where
  token_threshold : Int
  model_rates : List (String × ModelRate)
  default_rate : ModelRate

/-- The module as constructed in `LLM.__init__` (src/llm/llm.py lines
200-203): default rates, default default-rate, threshold 8000. -/
def theTokenAccounting : TokenAccountingModule :=
  { token_threshold := 8000
    model_rates := DEFAULT_MODEL_RATES
    default_rate := zero_default_rate }

/-- `TokenAccountingModule._currency_symbols` lookup with the
`currency + " "` fallback (src/llm/llm.py lines 45-50, 85-86). -/
def get_currency_symbol (currency : String) : String :=
  if currency = "USD" then "$"
  else if currency = "TWD" then "NT$"
  else if currency = "EUR" then "€"
  else currency ++ " "

/-- `TokenAccountingModule._get_rate` (src/llm/llm.py lines 77-83): exact
dict lookup, falling back to the default rate (with a printed warning). -/
def TokenAccountingModule.get_rate (m : TokenAccountingModule)
    (model_name : String) : ModelRate :=
  match m.model_rates.find? (fun r => r.1 = model_name) with
  | some r => r.2
  | none => m.default_rate

/-- `TokenAccountingModule._calculate_cost` (src/llm/llm.py lines 88-95). -/
def TokenAccountingModule.calculate_cost (m : TokenAccountingModule)
    (model_name : String) (input_tokens output_tokens : Int) : ℚ :=
  input_tokens * (m.get_rate model_name).input_per_token +
    output_tokens * (m.get_rate model_name).output_per_token

/-- One ledger line as assembled by `TokenAccountingModule.log_usage`
(src/llm/llm.py lines 97-128). -/
structure UsageLedgerEntry where
  timestamp : String
  model_name : String
  input_tokens : Int
  output_tokens : Int
  total_tokens : Int
  elapsed_time : ℚ
  estimated_cost : ℚ
  currency_symbol : String
deriving Repr, DecidableEq

/-- `TokenAccountingModule.log_usage` (src/llm/llm.py lines 97-128),
reduced to the ledger entry it appends and returns; file I/O and the
threshold warning print are side channels. -/
def TokenAccountingModule.log_usage (m : TokenAccountingModule)
    (model_name : String) (input_tokens output_tokens : Int)
    (elapsed_time : ℚ) (timestamp_str : String) : UsageLedgerEntry :=
  { timestamp := timestamp_str
    model_name := model_name
    input_tokens := input_tokens
    output_tokens := output_tokens
    total_tokens := input_tokens + output_tokens
    elapsed_time := elapsed_time
    estimated_cost := m.calculate_cost model_name input_tokens output_tokens
    currency_symbol := get_currency_symbol
      (m.get_rate model_name).currency }

/-- The static model catalog built in `LLM.__init__` (src/llm/llm.py lines
136-175), with the OLLAMA list empty (no discovered local models). -/
def models_catalog : List (String × List (String × String)) :=
  [("CLAUDE",
    [("Claude 3 Opus", "claude-3-opus-20240229"),
     ("Claude 3 Sonnet", "claude-3-sonnet-20240229"),
     ("Claude 3 Haiku", "claude-3-haiku-20240307"),
     ("Claude 3.5 Sonnet", "claude-3-5-sonnet-20241022")]),
   ("OPENAI",
    [("GPT-4o-mini", "gpt-4o-mini"),
     ("GPT-4o", "gpt-4o"),
     ("GPT-4 Turbo", "gpt-4-turbo"),
     ("GPT-3.5 Turbo", "gpt-3.5-turbo-0125")]),
   ("GOOGLE",
    [("Gemini 1.0 Pro", "gemini-pro"),
     ("Gemini 1.5 Flash", "gemini-1.5-flash"),
     ("Gemini 1.5 Pro", "gemini-1.5-pro"),
     ("Gemini 2.0 Flash", "gemini-2.0-flash"),
     ("Gemini 2.5 Pro (Preview 05-06)", "gemini-2.5-pro-preview-05-06")]),
   ("MISTRAL",
    [("Mistral 7b", "open-mistral-7b"),
     ("Mistral 8x7b", "open-mixtral-8x7b"),
     ("Mistral Medium", "mistral-medium-latest"),
     ("Mistral Small", "mistral-small-latest"),
     ("Mistral Large", "mistral-large-latest")]),
   ("GROQ",
    [("LLAMA3 8B", "llama3-8b-8192"),
     ("LLAMA3 70B", "llama3-70b-8192"),
     ("LLAMA2 70B", "llama2-70b-4096"),
     ("Mixtral", "mixtral-8x7b-32768"),
     ("GEMMA 7B", "gemma-7b-it")]),
   ("OLLAMA", []),
   ("LM_STUDIO", [("LM Studio", "local-model")])]

/-- `LLM.model_enum` (src/llm/llm.py lines 208-214): the dict
comprehension keyed by display name (a later duplicate display name would
overwrite an earlier one, hence the reverse-order first match), returning
`(provider family, model id)` or `(None, None)`. -/
def model_enum (models : List (String × List (String × String)))
    (model_name : String) : Option (String × String) :=
  ((models.flatMap (fun fam => fam.2.map (fun m => (m.1, (fam.1, m.2))))).reverse.find?
    (fun e => e.1 = model_name)).map (·.2)

/-- `paid_apis` (src/llm/llm.py line 239). -/
def paid_apis : List String := ["OPENAI", "CLAUDE", "GOOGLE", "MISTRAL", "GROQ"]

/-- `LLM.update_global_token_usage` (src/llm/llm.py lines 216-222): count
tokens of `s`, add them to the project's stored usage, then emit on the
"tokens" topic the value `get_latest_token_usage(project) + token_usage`
read *after* the update. Returns (new table, emitted payload). -/
def update_global_token_usage (count : String → Nat) (ts s project : String)
    (db : AgentStateDB) : AgentStateDB × Int :=
  let token_usage : Int := count s
  let db2 := update_token_usage ts project token_usage db
  (db2, get_latest_token_usage project db2 + token_usage)

/-- Outcome of one `LLM.inference` call: the table after the call, the
returned text (`none` when the call raises), whether the adapter was
invoked, the ledger lines written, and the payloads emitted on "tokens". -/
structure InferenceOutcome where
  db : AgentStateDB
  response : Option String
  adapterCalled : Bool
  ledger : List UsageLedgerEntry
  emitted : List Int
deriving Repr

/-- `LLM.inference` (src/llm/llm.py lines 224-295), success and
unknown-model paths. `raw` is the adapter's return value and `elapsed` the
measured wall-clock time (executor timing is modelled separately by
`pollLoop`; the timeout path calls `sys.exit` and is out of scope here).
Order of effects follows the source: prompt-side token update first, then
the catalog lookup (raising `ValueError` on a miss), then the adapter
call, the ledger write for paid families on the stripped response, and
the response-side token update on the stripped response. -/
def inference (count : String → Nat) (model_id : String) (raw : String)
    (elapsed : ℚ) (lts prompt project ts : String) (db : AgentStateDB) :
    InferenceOutcome :=
  let r1 := update_global_token_usage count ts prompt project db
  match model_enum models_catalog model_id with
  | none =>
    { db := r1.1, response := none, adapterCalled := false
      ledger := [], emitted := [r1.2] }
  | some fm =>
    let response := raw.trim
    let ledger :=
      if fm.1 ∈ paid_apis then
        [theTokenAccounting.log_usage fm.2 (count prompt) (count response) elapsed lts]
      else []
    let r2 := update_global_token_usage count ts response project r1.1
    { db := r2.1, response := some response, adapterCalled := true
      ledger := ledger, emitted := [r1.2, r2.2] }

/-- Events of the bounded executor's polling loop. -/
inductive PollEvent where
  | time (elapsedTenths : Nat)
  | slowWarning
  | timeoutError
  | finished
deriving Repr, DecidableEq

/-- The polling loop of `LLM.inference` (src/llm/llm.py lines 256-266),
with elapsed times in tenths of a second. At poll `k` it emits a heartbeat
with the elapsed time, emits the slow warning when `int(elapsed) == 5`
(i.e. `t / 10 = 5`), raises on `elapsed > timeout`, breaks when the future
is done, else sleeps and polls again. `fuel` only bounds the recursion;
the source loop is unbounded. -/
def pollLoop (timeoutTenths : Nat) (elapsedAt : Nat → Nat)
    (done : Nat → Bool) : Nat → Nat → List PollEvent
  | _, 0 => []
  | k, fuel + 1 =>
    let t := elapsedAt k
    (PollEvent.time t ::
      (if t / 10 = 5 then [PollEvent.slowWarning] else [])) ++
    (if timeoutTenths < t then [PollEvent.timeoutError]
     else if done k then [PollEvent.finished]
     else pollLoop timeoutTenths elapsedAt done (k + 1) fuel)

/-- Number of slow-warning events in a run. -/
def slowWarnCount (evs : List PollEvent) : Nat :=
  (evs.filter (· = PollEvent.slowWarning)).length

/-- Well-formedness of the table: every row's state stack is non-empty. -/
def WF (db : AgentStateDB) : Prop := ∀ r ∈ db, r.2 ≠ []

theorem firstRow_key {p : String} {db : AgentStateDB} {r}
    (h : firstRow p db = some r) : r.1 = p := by
  induction db with
  | nil => simp [firstRow] at h
  | cons hd tl ih =>
    by_cases hp : hd.1 = p
    · rw [firstRow, if_pos hp] at h
      cases h
      exact hp
    · rw [firstRow, if_neg hp] at h
      exact ih h

theorem firstRow_mem {p : String} {db : AgentStateDB} {r}
    (h : firstRow p db = some r) : r ∈ db := by
  induction db with
  | nil => simp [firstRow] at h
  | cons hd tl ih =>
    by_cases hp : hd.1 = p
    · rw [firstRow, if_pos hp] at h
      cases h
      exact List.mem_cons_self _ _
    · rw [firstRow, if_neg hp] at h
      exact List.mem_cons_of_mem _ (ih h)

theorem firstRow_append_some {p : String} {db l : AgentStateDB} {r}
    (h : firstRow p db = some r) : firstRow p (db ++ l) = some r := by
  induction db with
  | nil => simp [firstRow] at h
  | cons hd tl ih =>
    by_cases hp : hd.1 = p
    · rw [firstRow, if_pos hp] at h
      rw [List.cons_append, firstRow, if_pos hp]
      exact h
    · rw [firstRow, if_neg hp] at h
      rw [List.cons_append, firstRow, if_neg hp]
      exact ih h

theorem firstRow_append_none {p : String} {db l : AgentStateDB}
    (h : firstRow p db = none) : firstRow p (db ++ l) = firstRow p l := by
  induction db with
  | nil => rfl
  | cons hd tl ih =>
    by_cases hp : hd.1 = p
    · rw [firstRow, if_pos hp] at h
      cases h
    · rw [firstRow, if_neg hp] at h
      rw [List.cons_append, firstRow, if_neg hp]
      exact ih h

theorem firstRow_updateFirstRow_self {p : String} {db : AgentStateDB} {r}
    (f : List StateSnapshot → List StateSnapshot)
    (h : firstRow p db = some r) :
    firstRow p (updateFirstRow p f db) = some (r.1, f r.2) := by
  induction db with
  | nil => simp [firstRow] at h
  | cons hd tl ih =>
    by_cases hp : hd.1 = p
    · rw [firstRow, if_pos hp] at h
      cases h
      rw [updateFirstRow, if_pos hp, firstRow, if_pos hp]
    · rw [firstRow, if_neg hp] at h
      rw [updateFirstRow, if_neg hp, firstRow, if_neg hp]
      exact ih h

theorem firstRow_updateFirstRow_ne {q p : String} {db : AgentStateDB}
    (f : List StateSnapshot → List StateSnapshot) (hqp : ¬ q = p) :
    firstRow q (updateFirstRow p f db) = firstRow q db := by
  induction db with
  | nil => rfl
  | cons hd tl ih =>
    by_cases hp : hd.1 = p
    · have hq : ¬ hd.1 = q := fun hh => hqp (hh ▸ hp)
      rw [updateFirstRow, if_pos hp, firstRow, if_neg hq, firstRow, if_neg hq]
    · rw [updateFirstRow, if_neg hp, firstRow, firstRow]
      by_cases hq : hd.1 = q
      · rw [if_pos hq, if_pos hq]
      · rw [if_neg hq, if_neg hq]
        exact ih

theorem updateFirstRow_of_none {p : String} {db : AgentStateDB}
    (f : List StateSnapshot → List StateSnapshot)
    (h : firstRow p db = none) : updateFirstRow p f db = db := by
  induction db with
  | nil => rfl
  | cons hd tl ih =>
    by_cases hp : hd.1 = p
    · rw [firstRow, if_pos hp] at h
      cases h
    · rw [firstRow, if_neg hp] at h
      rw [updateFirstRow, if_neg hp, ih h]

theorem setLast_length (st : StateSnapshot) :
    ∀ s : List StateSnapshot, (setLast st s).length = s.length
  | [] => rfl
  | [_] => rfl
  | _ :: y :: rest => by
    rw [setLast]
    simpa using setLast_length st (y :: rest)

theorem modifyLast_length (f : StateSnapshot → StateSnapshot) :
    ∀ s : List StateSnapshot, (modifyLast f s).length = s.length
  | [] => rfl
  | [_] => rfl
  | _ :: y :: rest => by
    rw [modifyLast]
    simpa using modifyLast_length f (y :: rest)

theorem setLast_getLast? (st : StateSnapshot) :
    ∀ s : List StateSnapshot, s ≠ [] → (setLast st s).getLast? = some st
  | [], h => absurd rfl h
  | [_], _ => rfl
  | _ :: y :: rest, _ => by
    rw [setLast, List.getLast?_cons, setLast_getLast? st (y :: rest) (by simp)]
    rfl

theorem modifyLast_getLast? (f : StateSnapshot → StateSnapshot) :
    ∀ s : List StateSnapshot, (modifyLast f s).getLast? = s.getLast?.map f
  | [] => rfl
  | [_] => rfl
  | x :: y :: rest => by
    rw [modifyLast, List.getLast?_cons, modifyLast_getLast? f (y :: rest),
      List.getLast?_cons_cons]
    obtain ⟨a, ha⟩ := Option.isSome_iff_exists.mp
      (List.getLast?_isSome.mpr (List.cons_ne_nil y rest))
    rw [ha]
    rfl

theorem setLast_getElem? (st : StateSnapshot) :
    ∀ (s : List StateSnapshot) (i : Nat), i + 1 < s.length →
      (setLast st s)[i]? = s[i]?
  | [], _, h => by simp at h
  | [_], _, h => by simp at h
  | x :: y :: rest, 0, _ => by
    rw [setLast]
    simp
  | x :: y :: rest, i + 1, h => by
    rw [setLast]
    simpa using setLast_getElem? st (y :: rest) i (by simpa using h)

theorem modifyLast_getElem? (f : StateSnapshot → StateSnapshot) :
    ∀ (s : List StateSnapshot) (i : Nat), i + 1 < s.length →
      (modifyLast f s)[i]? = s[i]?
  | [], _, h => by simp at h
  | [_], _, h => by simp at h
  | x :: y :: rest, 0, _ => by
    rw [modifyLast]
    simp
  | x :: y :: rest, i + 1, h => by
    rw [modifyLast]
    simpa using modifyLast_getElem? f (y :: rest) i (by simpa using h)

theorem WF_append_singleton {db : AgentStateDB} {p : String}
    {s : List StateSnapshot} (hWF : WF db) (hs : s ≠ []) :
    WF (db ++ [(p, s)]) := by
  intro r hr
  rcases List.mem_append.mp hr with h | h
  · exact hWF r h
  · simp at h
    rw [h]
    exact hs

theorem WF_updateFirstRow {db : AgentStateDB} {p : String}
    {f : List StateSnapshot → List StateSnapshot} (hWF : WF db)
    (hf : ∀ s, s ≠ [] → f s ≠ []) : WF (updateFirstRow p f db) := by
  induction db with
  | nil => intro r hr; simp [updateFirstRow] at hr
  | cons hd tl ih =>
    have hhd : hd.2 ≠ [] := hWF hd (List.mem_cons_self _ _)
    have htl : WF tl := fun r hr => hWF r (List.mem_cons_of_mem _ hr)
    rw [updateFirstRow]
    by_cases hp : hd.1 = p
    · rw [if_pos hp]
      intro r hr
      rcases List.mem_cons.mp hr with h | h
      · rw [h]; exact hf hd.2 hhd
      · exact htl r h
    · rw [if_neg hp]
      intro r hr
      rcases List.mem_cons.mp hr with h | h
      · rw [h]; exact hhd
      · exact ih htl r h

theorem modifyLast_ne_nil {f : StateSnapshot → StateSnapshot}
    {s : List StateSnapshot} (hs : s ≠ []) : modifyLast f s ≠ [] := by
  intro h
  apply hs
  have := modifyLast_length f s
  rw [h] at this
  exact List.length_eq_zero.mp this.symm

theorem setLast_ne_nil {st : StateSnapshot} {s : List StateSnapshot}
    (hs : s ≠ []) : setLast st s ≠ [] := by
  intro h
  apply hs
  have := setLast_length st s
  rw [h] at this
  exact List.length_eq_zero.mp this.symm

theorem WF_update_token_usage {db : AgentStateDB} (ts p : String) (n : Int)
    (hWF : WF db) : WF (update_token_usage ts p n db) := by
  rw [update_token_usage]
  cases h : firstRow p db with
  | some r => exact WF_updateFirstRow hWF (fun s hs => modifyLast_ne_nil hs)
  | none => exact WF_append_singleton hWF (by simp)

/-- The pointwise effect of one `update_token_usage` on any project's
latest token usage: the targeted project's usage grows by `n` (also when
the row is auto-vivified, since absent projects read as usage 0), every
other project's usage is untouched. -/
theorem get_latest_token_usage_update (ts q p : String) (n : Int)
    (db : AgentStateDB) (hWF : WF db) :
    get_latest_token_usage q (update_token_usage ts p n db) =
      if q = p then get_latest_token_usage q db + n
      else get_latest_token_usage q db := by
  rw [update_token_usage]
  cases h : firstRow p db with
  | some r =>
    by_cases hqp : q = p
    · subst hqp
      have hsome := firstRow_updateFirstRow_self
        (modifyLast fun t => { t with token_usage := t.token_usage + n }) h
      have hne : r.2 ≠ [] := hWF r (firstRow_mem h)
      obtain ⟨a, ha⟩ := Option.isSome_iff_exists.mp (List.getLast?_isSome.mpr hne)
      simp only [if_pos rfl, get_latest_token_usage, hsome, h,
        modifyLast_getLast?, ha, Option.map_some']
      simp
    · simp only [if_neg hqp, get_latest_token_usage,
        firstRow_updateFirstRow_ne _ hqp]
  | none =>
    by_cases hqp : q = p
    · subst hqp
      simp only [if_pos rfl, get_latest_token_usage, h,
        firstRow_append_none h, firstRow, if_pos rfl, List.getLast?_singleton]
      simp
    · rw [if_neg hqp]
      cases hq : firstRow q db with
      | some r =>
        simp only [get_latest_token_usage, firstRow_append_some hq, hq]
      | none =>
        have : firstRow q (db ++ [(p, [{ new_state ts with token_usage := n }])]) = none := by
          rw [firstRow_append_none hq, firstRow]
          rw [if_neg (fun hh : (p : String) = q => hqp hh.symm)]
          rfl
        simp only [get_latest_token_usage, hq, this]

theorem firstRow_updateFirstRow_length_mono {q p : String}
    {db : AgentStateDB} {r} {f : List StateSnapshot → List StateSnapshot}
    (hf : ∀ s, s.length ≤ (f s).length) (h : firstRow q db = some r) :
    ∃ r', firstRow q (updateFirstRow p f db) = some r' ∧
      r.2.length ≤ r'.2.length := by
  by_cases hqp : q = p
  · subst hqp
    exact ⟨(r.1, f r.2), firstRow_updateFirstRow_self f h, hf r.2⟩
  · exact ⟨r, by rw [firstRow_updateFirstRow_ne f hqp]; exact h, le_refl _⟩

/-- The mutating operations of the project state store, with the
non-database arguments (timestamp string, payload) as constructor data. -/
inductive StoreOp where
  | createState (ts : String)
  | pushState (st : StateSnapshot)
  | replaceTop (st : StateSnapshot)
  | setActive (ts : String) (b : Bool)
  | setCompleted (ts : String) (b : Bool)
  | addTokenUsage (ts : String) (n : Int)
  | deleteProject
deriving Repr, DecidableEq

/-- Dispatch a store operation on project `p` to its `src/state.py`
implementation. -/
def applyOp : StoreOp → String → AgentStateDB → AgentStateDB
  | .createState ts, p, db => create_state ts p db
  | .pushState st, p, db => add_to_current_state p st db
  | .replaceTop st, p, db => update_latest_state p st db
  | .setActive ts b, p, db => set_agent_active ts p b db
  | .setCompleted ts b, p, db => set_agent_completed ts p b db
  | .addTokenUsage ts n, p, db => update_token_usage ts p n db
  | .deleteProject, p, db => delete_state p db

/-- The sequence of token-usage updates `(project, delta)` performed by a
run of inferences, applied in order through
`AgentState.update_token_usage`. -/
def applyUsageUpdates (ts : String) (us : List (String × Int))
    (db : AgentStateDB) : AgentStateDB :=
  us.foldl (fun d u => update_token_usage ts u.1 u.2 d) db

theorem WF_applyUsageUpdates (ts : String) (us : List (String × Int))
    (db : AgentStateDB) (hWF : WF db) : WF (applyUsageUpdates ts us db) := by
  induction us generalizing db with
  | nil => exact hWF
  | cons u us ih =>
    exact ih (update_token_usage ts u.1 u.2 db) (WF_update_token_usage ts u.1 u.2 hWF)

theorem get_latest_applyUsageUpdates (ts : String) (us : List (String × Int))
    (db : AgentStateDB) (p : String) (hWF : WF db) :
    get_latest_token_usage p (applyUsageUpdates ts us db) =
      get_latest_token_usage p db +
        ((us.filter (fun u => u.1 = p)).map (·.2)).sum := by
  induction us generalizing db with
  | nil => simp [applyUsageUpdates]
  | cons u us ih =>
    have step := get_latest_token_usage_update ts p u.1 u.2 db hWF
    have hWF2 := WF_update_token_usage ts u.1 u.2 hWF
    have hcons : applyUsageUpdates ts (u :: us) db =
        applyUsageUpdates ts us (update_token_usage ts u.1 u.2 db) := rfl
    rw [hcons, ih (update_token_usage ts u.1 u.2 db) hWF2, step]
    by_cases hpu : p = u.1
    · rw [if_pos hpu, List.filter_cons_of_pos (by simp [hpu]), List.map_cons,
        List.sum_cons]
      ring
    · rw [if_neg hpu,
        List.filter_cons_of_neg (by simpa using fun hh => hpu hh.symm)]

theorem slowWarnCount_append (a b : List PollEvent) :
    slowWarnCount (a ++ b) = slowWarnCount a + slowWarnCount b := by
  simp [slowWarnCount]

theorem slowWarnCount_time (t : Nat) (l : List PollEvent) :
    slowWarnCount (PollEvent.time t :: l) = slowWarnCount l := by
  simp [slowWarnCount]

theorem slowWarnCount_warn (l : List PollEvent) :
    slowWarnCount (PollEvent.slowWarning :: l) = slowWarnCount l + 1 := by
  simp [slowWarnCount, List.filter]

theorem slowWarnCount_nil : slowWarnCount [] = 0 := rfl

theorem slowWarnCount_finished : slowWarnCount [PollEvent.finished] = 0 := by
  simp [slowWarnCount]

/-- Slow-warning count of the ideal executor run: polls every 0.5 s
(`elapsedAt k = 5 * k` tenths), the adapter call finishing at poll `n`,
with the timeout not reached. Counting down from poll `k`, the loop emits
the slow warning once for each remaining poll whose elapsed time truncates
to 5 seconds, i.e. polls 10 and 11. -/
theorem pollLoop_ideal_warnCount (T n : Nat) (hT : 5 * n ≤ T) (h11 : 11 ≤ n) :
    ∀ (fuel k : Nat), fuel = n + 1 - k → k ≤ n →
      slowWarnCount (pollLoop T (fun j => 5 * j) (fun j => j == n) k fuel) =
        if k ≤ 10 then 2 else if k ≤ 11 then 1 else 0 := by
  intro fuel
  induction fuel with
  | zero => intro k hfuel hk; omega
  | succ fuel ih =>
    intro k hfuel hk
    simp only [pollLoop]
    have hTk : ¬ T < 5 * k := by omega
    rw [if_neg hTk]
    by_cases hkn : k = n
    · have hdone : (k == n) = true := by simp [hkn]
      simp only [hdone, if_true]
      rw [slowWarnCount_append, slowWarnCount_time]
      by_cases h5 : 5 * k / 10 = 5
      · rw [if_pos h5, slowWarnCount_warn, slowWarnCount_nil,
          slowWarnCount_finished]
        split_ifs <;> omega
      · rw [if_neg h5, slowWarnCount_nil, slowWarnCount_finished]
        split_ifs <;> omega
    · have hdone : (k == n) = false := by simp [hkn]
      simp only [hdone, Bool.false_eq_true, if_false]
      rw [slowWarnCount_append, slowWarnCount_time,
        ih (k + 1) (by omega) (by omega)]
      by_cases h5 : 5 * k / 10 = 5
      · rw [if_pos h5, slowWarnCount_warn, slowWarnCount_nil]
        split_ifs <;> omega
      · rw [if_neg h5, slowWarnCount_nil]
        split_ifs <;> omega

/-- Claim C7: `update_token_usage` adds `delta` to the top element's
`token_usage` when the project exists, creates a one-element stack with
`token_usage = delta` when it does not, `get_latest_token_usage` returns 0
for a non-existent project, and the fresh-project scenario 50 then 30
yields 80. -/
theorem claim_C7_addTokenUsage_spec :
    (∀ (ts p : String) (n : Int) (db : AgentStateDB), 0 ≤ n → WF db →
      get_latest_token_usage p (update_token_usage ts p n db) =
        get_latest_token_usage p db + n) ∧
    (∀ (ts p : String) (n : Int) (db : AgentStateDB), 0 ≤ n →
      firstRow p db = none →
      update_token_usage ts p n db =
        db ++ [(p, [{ new_state ts with token_usage := n }])]) ∧
    (∀ (p : String) (db : AgentStateDB), firstRow p db = none →
      get_latest_token_usage p db = 0) ∧
    (∀ (ts : String) (db : AgentStateDB), WF db → firstRow "p1" db = none →
      get_latest_token_usage "p1"
        (update_token_usage ts "p1" 30 (update_token_usage ts "p1" 50 db)) = 80) := by
  have hpoint : ∀ (ts p : String) (n : Int) (db : AgentStateDB), WF db →
      get_latest_token_usage p (update_token_usage ts p n db) =
        get_latest_token_usage p db + n := by
    intro ts p n db hWF
    have h := get_latest_token_usage_update ts p p n db hWF
    rwa [if_pos rfl] at h
  have hzero : ∀ (p : String) (db : AgentStateDB), firstRow p db = none →
      get_latest_token_usage p db = 0 := by
    intro p db h
    simp only [get_latest_token_usage, h]
  refine ⟨fun ts p n db _ hWF => hpoint ts p n db hWF, ?_, hzero, ?_⟩
  · intro ts p n db _ h
    simp only [update_token_usage, h]
  · intro ts db hWF hfresh
    have h1 := hpoint ts "p1" 50 db hWF
    have h2 := hpoint ts "p1" 30 (update_token_usage ts "p1" 50 db)
      (WF_update_token_usage ts "p1" 50 hWF)
    rw [h2, h1, hzero "p1" db hfresh]
    norm_num

/-- Witness for C7 at concrete inputs: the empty store and the scenario of
the claim. -/
theorem claim_C7_witness :
    get_latest_token_usage "p1"
      (update_token_usage "t" "p1" 30 (update_token_usage "t" "p1" 50 [])) = 80 :=
  claim_C7_addTokenUsage_spec.2.2.2 "t" [] (by intro r hr; simp at hr) rfl

/-- Claim C6: on an existing project `add_to_current_state` grows the
stack by exactly one and `update_latest_state` preserves its length; on a
non-existent project each of `set_agent_active`, `set_agent_completed`
and `update_token_usage` creates the project with a stack of exactly one
element. -/
theorem claim_C6_stack_length_laws :
    (∀ (p : String) (st : StateSnapshot) (db : AgentStateDB) r,
      firstRow p db = some r →
      ∃ s', firstRow p (add_to_current_state p st db) = some (p, s') ∧
        s'.length = r.2.length + 1) ∧
    (∀ (p : String) (st : StateSnapshot) (db : AgentStateDB) r,
      firstRow p db = some r →
      ∃ s', firstRow p (update_latest_state p st db) = some (p, s') ∧
        s'.length = r.2.length) ∧
    (∀ (ts p : String) (b : Bool) (db : AgentStateDB),
      firstRow p db = none →
      ∃ st, firstRow p (set_agent_active ts p b db) = some (p, [st])) ∧
    (∀ (ts p : String) (b : Bool) (db : AgentStateDB),
      firstRow p db = none →
      ∃ st, firstRow p (set_agent_completed ts p b db) = some (p, [st])) ∧
    (∀ (ts p : String) (n : Int) (db : AgentStateDB),
      firstRow p db = none →
      ∃ st, firstRow p (update_token_usage ts p n db) = some (p, [st])) := by
  refine ⟨?_, ?_, ?_, ?_, ?_⟩
  · intro p st db r h
    refine ⟨r.2 ++ [st], ?_, by simp⟩
    simp only [add_to_current_state, h]
    rw [firstRow_updateFirstRow_self _ h, firstRow_key h]
  · intro p st db r h
    refine ⟨setLast st r.2, ?_, setLast_length st r.2⟩
    simp only [update_latest_state, h]
    rw [firstRow_updateFirstRow_self _ h, firstRow_key h]
  · intro ts p b db h
    refine ⟨{ new_state ts with agent_is_active := b }, ?_⟩
    simp only [set_agent_active, h]
    rw [firstRow_append_none h, firstRow, if_pos rfl]
  · intro ts p b db h
    refine ⟨{ new_state ts with completed := b }, ?_⟩
    simp only [set_agent_completed, h]
    rw [firstRow_append_none h, firstRow, if_pos rfl]
  · intro ts p n db h
    refine ⟨{ new_state ts with token_usage := n }, ?_⟩
    simp only [update_token_usage, h]
    rw [firstRow_append_none h, firstRow, if_pos rfl]

/-- Witness for C6 at concrete inputs: a one-row store for the existing
cases, the empty store for the vivifying cases. -/
theorem claim_C6_witness :
    (∃ s', firstRow "p" (add_to_current_state "p" (new_state "t")
        [("p", [new_state "t"])]) = some ("p", s') ∧ s'.length = 1 + 1) ∧
    (∃ s', firstRow "p" (update_latest_state "p" (new_state "t")
        [("p", [new_state "t"])]) = some ("p", s') ∧ s'.length = 1) ∧
    (∃ st, firstRow "p" (set_agent_active "t" "p" true []) = some ("p", [st])) ∧
    (∃ st, firstRow "p" (set_agent_completed "t" "p" true []) = some ("p", [st])) ∧
    (∃ st, firstRow "p" (update_token_usage "t" "p" 7 []) = some ("p", [st])) :=
  ⟨claim_C6_stack_length_laws.1 "p" (new_state "t") _ ("p", [new_state "t"]) rfl,
   claim_C6_stack_length_laws.2.1 "p" (new_state "t") _ ("p", [new_state "t"]) rfl,
   claim_C6_stack_length_laws.2.2.1 "t" "p" true [] rfl,
   claim_C6_stack_length_laws.2.2.2.1 "t" "p" true [] rfl,
   claim_C6_stack_length_laws.2.2.2.2 "t" "p" 7 [] rfl⟩

/-- Claim C5: every state-store operation preserves the invariant that
each existing project row holds a non-empty stack (so every creating path
creates at least one element), and no operation other than project
deletion ever shrinks a stack. -/
theorem claim_C5_nonempty_invariant :
    ∀ (op : StoreOp) (p : String) (db : AgentStateDB), WF db →
      WF (applyOp op p db) ∧
      (¬ op = StoreOp.deleteProject →
        ∀ (q : String) r, firstRow q db = some r →
          ∃ r', firstRow q (applyOp op p db) = some r' ∧
            r.2.length ≤ r'.2.length) := by
  intro op p db hWF
  cases op with
  | createState ts =>
    refine ⟨WF_append_singleton hWF (by simp), ?_⟩
    intro _ q r hq
    exact ⟨r, firstRow_append_some hq, le_refl _⟩
  | pushState st =>
    cases h : firstRow p db with
    | some r0 =>
      constructor
      · show WF (add_to_current_state p st db)
        simp only [add_to_current_state, h]
        exact WF_updateFirstRow hWF (fun s _ => by simp)
      · intro _ q r hq
        show ∃ r', firstRow q (add_to_current_state p st db) = some r' ∧ _
        simp only [add_to_current_state, h]
        exact firstRow_updateFirstRow_length_mono (fun s => by simp) hq
    | none =>
      constructor
      · show WF (add_to_current_state p st db)
        simp only [add_to_current_state, h]
        exact WF_append_singleton hWF (by simp)
      · intro _ q r hq
        show ∃ r', firstRow q (add_to_current_state p st db) = some r' ∧ _
        simp only [add_to_current_state, h]
        exact ⟨r, firstRow_append_some hq, le_refl _⟩
  | replaceTop st =>
    cases h : firstRow p db with
    | some r0 =>
      constructor
      · show WF (update_latest_state p st db)
        simp only [update_latest_state, h]
        exact WF_updateFirstRow hWF (fun s hs => setLast_ne_nil hs)
      · intro _ q r hq
        show ∃ r', firstRow q (update_latest_state p st db) = some r' ∧ _
        simp only [update_latest_state, h]
        exact firstRow_updateFirstRow_length_mono
          (fun s => le_of_eq (setLast_length st s).symm) hq
    | none =>
      constructor
      · show WF (update_latest_state p st db)
        simp only [update_latest_state, h]
        exact WF_append_singleton hWF (by simp)
      · intro _ q r hq
        show ∃ r', firstRow q (update_latest_state p st db) = some r' ∧ _
        simp only [update_latest_state, h]
        exact ⟨r, firstRow_append_some hq, le_refl _⟩
  | setActive ts b =>
    cases h : firstRow p db with
    | some r0 =>
      constructor
      · show WF (set_agent_active ts p b db)
        simp only [set_agent_active, h]
        exact WF_updateFirstRow hWF (fun s hs => modifyLast_ne_nil hs)
      · intro _ q r hq
        show ∃ r', firstRow q (set_agent_active ts p b db) = some r' ∧ _
        simp only [set_agent_active, h]
        exact firstRow_updateFirstRow_length_mono
          (fun s => le_of_eq (modifyLast_length _ s).symm) hq
    | none =>
      constructor
      · show WF (set_agent_active ts p b db)
        simp only [set_agent_active, h]
        exact WF_append_singleton hWF (by simp)
      · intro _ q r hq
        show ∃ r', firstRow q (set_agent_active ts p b db) = some r' ∧ _
        simp only [set_agent_active, h]
        exact ⟨r, firstRow_append_some hq, le_refl _⟩
  | setCompleted ts b =>
    cases h : firstRow p db with
    | some r0 =>
      constructor
      · show WF (set_agent_completed ts p b db)
        simp only [set_agent_completed, h]
        exact WF_updateFirstRow hWF (fun s hs => modifyLast_ne_nil hs)
      · intro _ q r hq
        show ∃ r', firstRow q (set_agent_completed ts p b db) = some r' ∧ _
        simp only [set_agent_completed, h]
        exact firstRow_updateFirstRow_length_mono
          (fun s => le_of_eq (modifyLast_length _ s).symm) hq
    | none =>
      constructor
      · show WF (set_agent_completed ts p b db)
        simp only [set_agent_completed, h]
        exact WF_append_singleton hWF (by simp)
      · intro _ q r hq
        show ∃ r', firstRow q (set_agent_completed ts p b db) = some r' ∧ _
        simp only [set_agent_completed, h]
        exact ⟨r, firstRow_append_some hq, le_refl _⟩
  | addTokenUsage ts n =>
    cases h : firstRow p db with
    | some r0 =>
      constructor
      · show WF (update_token_usage ts p n db)
        simp only [update_token_usage, h]
        exact WF_updateFirstRow hWF (fun s hs => modifyLast_ne_nil hs)
      · intro _ q r hq
        show ∃ r', firstRow q (update_token_usage ts p n db) = some r' ∧ _
        simp only [update_token_usage, h]
        exact firstRow_updateFirstRow_length_mono
          (fun s => le_of_eq (modifyLast_length _ s).symm) hq
    | none =>
      constructor
      · show WF (update_token_usage ts p n db)
        simp only [update_token_usage, h]
        exact WF_append_singleton hWF (by simp)
      · intro _ q r hq
        show ∃ r', firstRow q (update_token_usage ts p n db) = some r' ∧ _
        simp only [update_token_usage, h]
        exact ⟨r, firstRow_append_some hq, le_refl _⟩
  | deleteProject =>
    refine ⟨?_, fun hne => absurd rfl hne⟩
    intro r hr
    exact hWF r (List.mem_of_mem_filter hr)

/-- Witness for C5 at concrete inputs: a push on the empty store keeps it
well-formed, and a completion toggle never shrinks the existing row. -/
theorem claim_C5_witness :
    WF (applyOp (StoreOp.pushState (new_state "t")) "p" []) ∧
    (∃ r', firstRow "p" (applyOp (StoreOp.setCompleted "t" true) "p"
        [("p", [new_state "t"])]) = some r' ∧ 1 ≤ r'.2.length) :=
  ⟨(claim_C5_nonempty_invariant (StoreOp.pushState (new_state "t")) "p" []
      (by intro r hr; simp at hr)).1,
   (claim_C5_nonempty_invariant (StoreOp.setCompleted "t" true) "p"
      [("p", [new_state "t"])] (by intro r hr; simp at hr; simp [hr])).2
      (by simp) "p" ("p", [new_state "t"]) rfl⟩

/-- Claim C9: token accounting is additive and order-independent across
disjoint projects: after any interleaved sequence of usage updates
starting from a store in which project `p` does not exist, `p`'s
cumulative usage is exactly the sum of the deltas addressed to `p`,
whatever updates to other projects were interleaved. -/
theorem claim_C9_token_additivity (ts : String) (us : List (String × Int))
    (db : AgentStateDB) (p : String) (hWF : WF db)
    (hfresh : firstRow p db = none) :
    get_latest_token_usage p (applyUsageUpdates ts us db) =
      ((us.filter (fun u => u.1 = p)).map (·.2)).sum := by
  rw [get_latest_applyUsageUpdates ts us db p hWF]
  simp only [get_latest_token_usage, hfresh]
  exact zero_add _

/-- Witness for C9 at a concrete interleaving of two projects. -/
theorem claim_C9_witness :
    get_latest_token_usage "a"
      (applyUsageUpdates "t" [("a", 3), ("b", 5), ("a", 4)] []) = 7 := by
  have h := claim_C9_token_additivity "t" [("a", 3), ("b", 5), ("a", 4)] [] "a"
    (by intro r hr; simp at hr) rfl
  rw [h]
  decide

/-- Claim C8: every ledger entry produced by the token meter as
configured in `LLM.__init__` records `totalTokens = inputTokens +
outputTokens`, a non-negative estimated cost, and a zero cost for any
model name absent from the rate table (the zero-cost default rate, not an
error). -/
theorem claim_C8_ledger_invariants (name lts : String) (i o : Int) (e : ℚ)
    (hi : 0 ≤ i) (ho : 0 ≤ o) :
    (theTokenAccounting.log_usage name i o e lts).total_tokens = i + o ∧
    0 ≤ (theTokenAccounting.log_usage name i o e lts).estimated_cost ∧
    (DEFAULT_MODEL_RATES.find? (fun r => r.1 = name) = none →
      (theTokenAccounting.log_usage name i o e lts).estimated_cost = 0) := by
  refine ⟨rfl, ?_, ?_⟩
  · show 0 ≤ theTokenAccounting.calculate_cost name i o
    rw [TokenAccountingModule.calculate_cost, TokenAccountingModule.get_rate]
    cases hfind : theTokenAccounting.model_rates.find? (fun r => r.1 = name) with
    | none =>
      show (0 : ℚ) ≤ i * zero_default_rate.input_per_token +
        o * zero_default_rate.output_per_token
      rw [zero_default_rate]
      norm_num
    | some r =>
      have hr : r = ("Gemini 2.5 Pro",
          { input_per_token := 1/4000, output_per_token := 1/2000,
            currency := "USD" }) := by
        have : theTokenAccounting.model_rates = DEFAULT_MODEL_RATES := rfl
        rw [this, DEFAULT_MODEL_RATES, List.find?] at hfind
        split at hfind
        · cases hfind; rfl
        · rw [List.find?] at hfind
          cases hfind
      rw [hr]
      have hi' : (0 : ℚ) ≤ (i : ℚ) := by exact_mod_cast hi
      have ho' : (0 : ℚ) ≤ (o : ℚ) := by exact_mod_cast ho
      have h1 : (0 : ℚ) ≤ (i : ℚ) * (1/4000) := by positivity
      have h2 : (0 : ℚ) ≤ (o : ℚ) * (1/2000) := by positivity
      exact add_nonneg h1 h2
  · intro hnone
    show theTokenAccounting.calculate_cost name i o = 0
    rw [TokenAccountingModule.calculate_cost, TokenAccountingModule.get_rate]
    have : theTokenAccounting.model_rates.find? (fun r => r.1 = name) = none := hnone
    rw [this]
    show (i : ℚ) * zero_default_rate.input_per_token +
      (o : ℚ) * zero_default_rate.output_per_token = 0
    rw [zero_default_rate]
    norm_num

/-- Witness for C8: a model absent from the rate table, 3 input and 4
output tokens. -/
theorem claim_C8_witness :
    (theTokenAccounting.log_usage "some-unrated-model" 3 4 1 "ts").total_tokens = 3 + 4 ∧
    (theTokenAccounting.log_usage "some-unrated-model" 3 4 1 "ts").estimated_cost = 0 := by
  have h := claim_C8_ledger_invariants "some-unrated-model" "ts" 3 4 1
    (by norm_num) (by norm_num)
  exact ⟨h.1, h.2.2 (by decide)⟩

/-- Counterexample to claim C2 as stated: counting the 2-token string
"ab" for a fresh project stores cumulative usage 2, but the value emitted
on the "tokens" topic is 4, so the emitted total does not equal the
stored cumulative usage after the update. -/
theorem claim_C2_counterexample :
    (update_global_token_usage (fun s => s.length) "t0" "ab" "p" []).2 = 4 ∧
    get_latest_token_usage "p"
      (update_global_token_usage (fun s => s.length) "t0" "ab" "p" []).1 = 2 := by
  exact ⟨rfl, rfl⟩

/-- Claim C2 amended: after `update_global_token_usage` counts a string,
the stored cumulative usage grows by the string's token count, but the
total emitted on the "tokens" topic is the prior stored usage plus twice
that count — it exceeds the stored value by the count (they agree only
when the count is 0), because the source re-reads the already-updated
usage and adds the count again. -/
theorem claim_C2_amended (count : String → Nat) (ts s project : String)
    (db : AgentStateDB) (hWF : WF db) :
    (update_global_token_usage count ts s project db).2 =
      get_latest_token_usage project db + 2 * (count s : Int) ∧
    get_latest_token_usage project
      (update_global_token_usage count ts s project db).1 =
      get_latest_token_usage project db + (count s : Int) := by
  have h := get_latest_token_usage_update ts project project (count s) db hWF
  rw [if_pos rfl] at h
  constructor
  · show get_latest_token_usage project
      (update_token_usage ts project (count s) db) + (count s : Int) = _
    rw [h]
    ring
  · exact h

/-- Witness for C2 amended at the counterexample's own input. -/
theorem claim_C2_witness :
    (update_global_token_usage String.length "t0" "ab" "p" []).2 =
      get_latest_token_usage "p" [] + 2 * (("ab".length : Nat) : Int) :=
  (claim_C2_amended String.length "t0" "ab" "p" []
    (by intro r hr; simp at hr)).1

/-- Counterexample to claim C1 as stated: calling `inference` with the
unresolvable display name "foo" raises (response `none`), calls no
adapter and writes no ledger line, but the project's stored cumulative
token usage changes from 0 to 2 (the prompt "hi" is counted before the
catalog lookup, src/llm/llm.py line 225). -/
theorem claim_C1_counterexample :
    (inference (fun s => s.length) "foo" "out" 0 "lt" "hi" "proj" "t0" []).response = none ∧
    (inference (fun s => s.length) "foo" "out" 0 "lt" "hi" "proj" "t0" []).adapterCalled = false ∧
    (inference (fun s => s.length) "foo" "out" 0 "lt" "hi" "proj" "t0" []).ledger = [] ∧
    get_latest_token_usage "proj"
      (inference (fun s => s.length) "foo" "out" 0 "lt" "hi" "proj" "t0" []).db = 2 ∧
    get_latest_token_usage "proj" ([] : AgentStateDB) = 0 :=
  ⟨rfl, rfl, rfl, rfl, rfl⟩

/-- Claim C1 amended: for every unresolvable display name the call fails,
performs no adapter call and no ledger write, but the prompt-side
token-usage update has already happened: the stored cumulative usage
after the failed call is the prior value plus the prompt's token count. -/
theorem claim_C1_amended (count : String → Nat) (model_id raw : String)
    (e : ℚ) (lts prompt project ts : String) (db : AgentStateDB)
    (hWF : WF db) (h : model_enum models_catalog model_id = none) :
    (inference count model_id raw e lts prompt project ts db).response = none ∧
    (inference count model_id raw e lts prompt project ts db).adapterCalled = false ∧
    (inference count model_id raw e lts prompt project ts db).ledger = [] ∧
    get_latest_token_usage project
      (inference count model_id raw e lts prompt project ts db).db =
      get_latest_token_usage project db + (count prompt : Int) := by
  have hupd := get_latest_token_usage_update ts project project
    (count prompt) db hWF
  rw [if_pos rfl] at hupd
  simp only [inference, h]
  refine ⟨trivial, trivial, trivial, ?_⟩
  exact hupd

/-- Witness for C1 amended: the unknown name "foo" on a store already
holding another project's row. -/
theorem claim_C1_witness :
    (inference String.length "foo" "out" 0 "lt" "hi" "proj" "t0"
      [("q", [new_state "t"])]).response = none ∧
    (inference String.length "foo" "out" 0 "lt" "hi" "proj" "t0"
      [("q", [new_state "t"])]).adapterCalled = false ∧
    (inference String.length "foo" "out" 0 "lt" "hi" "proj" "t0"
      [("q", [new_state "t"])]).ledger = [] ∧
    get_latest_token_usage "proj"
      (inference String.length "foo" "out" 0 "lt" "hi" "proj" "t0"
        [("q", [new_state "t"])]).db =
      get_latest_token_usage "proj" [("q", [new_state "t"])] +
        (("hi".length : Nat) : Int) :=
  claim_C1_amended String.length "foo" "out" 0 "lt" "hi" "proj" "t0"
    [("q", [new_state "t"])] (by intro r hr; simp at hr; simp [hr]) rfl

/-- Claim C10: on the success path the text returned to the caller is the
adapter's raw output with surrounding whitespace stripped, and the
response-side usage delta added to the project is the token count of that
stripped text (the prompt-side delta having been added first). -/
theorem claim_C10_response_stripped (count : String → Nat)
    (model_id raw : String) (e : ℚ) (lts prompt project ts : String)
    (db : AgentStateDB) (fm : String × String) (hWF : WF db)
    (h : model_enum models_catalog model_id = some fm) :
    (inference count model_id raw e lts prompt project ts db).response =
      some raw.trim ∧
    get_latest_token_usage project
      (inference count model_id raw e lts prompt project ts db).db =
      get_latest_token_usage project db + (count prompt : Int) +
        (count raw.trim : Int) := by
  have h1 := get_latest_token_usage_update ts project project
    (count prompt) db hWF
  rw [if_pos rfl] at h1
  have h2 := get_latest_token_usage_update ts project project
    (count raw.trim) (update_token_usage ts project (count prompt) db)
    (WF_update_token_usage ts project (count prompt) hWF)
  rw [if_pos rfl] at h2
  simp only [inference, h]
  refine ⟨trivial, ?_⟩
  show get_latest_token_usage project
    (update_token_usage ts project (count raw.trim)
      (update_token_usage ts project (count prompt) db)) = _
  rw [h2, h1]

/-- Witness for C10: the display name "GPT-4o" with a padded adapter
output on the empty store. -/
theorem claim_C10_witness :
    (inference String.length "GPT-4o" "  hello  " 0 "lt" "hi" "proj" "t0"
      []).response = some ("  hello  ".trim) ∧
    get_latest_token_usage "proj"
      (inference String.length "GPT-4o" "  hello  " 0 "lt" "hi" "proj" "t0"
        []).db =
      get_latest_token_usage "proj" [] + (("hi".length : Nat) : Int) +
        ((("  hello  ".trim).length : Nat) : Int) :=
  claim_C10_response_stripped String.length "GPT-4o" "  hello  " 0 "lt"
    "hi" "proj" "t0" [] ("OPENAI", "gpt-4o")
    (by intro r hr; simp at hr) rfl

/-- Counterexample to claim C3 as stated: under the ideal half-second
polling schedule (elapsed `5 * k` tenths at poll `k`), a run whose
adapter finishes at poll 12 (6.0 s) with timeout 60 s emits the slow
warning twice — at polls 10 (5.0 s) and 11 (5.5 s), both of which
truncate to 5 — not exactly once. -/
theorem claim_C3_counterexample :
    slowWarnCount (pollLoop 600 (fun j => 5 * j) (fun j => j == 12) 0 13) = 2 := by
  decide

/-- Claim C3 amended: the loop emits the slow warning at every poll whose
elapsed time truncates to 5 seconds, not once per run: under the ideal
half-second schedule, every run that is still incomplete at 5.5 s (and
does not time out) emits the warning exactly twice. -/
theorem claim_C3_amended (T n : Nat) (hT : 5 * n ≤ T) (h11 : 11 ≤ n) :
    slowWarnCount (pollLoop T (fun j => 5 * j) (fun j => j == n) 0 (n + 1)) = 2 := by
  have h := pollLoop_ideal_warnCount T n hT h11 (n + 1) 0 (by omega) (by omega)
  simpa using h

/-- Witness for C3 amended: completion at poll 20 (10 s) with timeout
100 s. -/
theorem claim_C3_witness :
    slowWarnCount (pollLoop 1000 (fun j => 5 * j) (fun j => j == 20) 0 21) = 2 :=
  claim_C3_amended 1000 20 (by norm_num) (by norm_num)

/-- Counterexample to claim C4 as stated: `set_agent_completed` on an
absent project auto-vivifies the one-element stack with the default empty
monologue, not the fixed completion text. -/
theorem claim_C4_counterexample :
    (get_latest_state "p" (set_agent_completed "t0" "p" true [])).map
      StateSnapshot.internal_monologue = some "" ∧
    ¬ (get_latest_state "p" (set_agent_completed "t0" "p" true [])).map
      StateSnapshot.internal_monologue = some "Agent has completed the task." := by
  exact ⟨rfl, by decide⟩

/-- Claim C4 amended: on an existing project `set_agent_completed`
mutates only the top element — setting `completed` to the argument and
the monologue to the fixed completion text, leaving every earlier element
and every other field of the top element unchanged, and leaving every
other project's row untouched; on an absent project it auto-vivifies a
one-element stack with `completed` set but the monologue left at the
default empty string (the completion text is not written on that path). -/
theorem claim_C4_amended :
    (∀ (ts p : String) (b : Bool) (db : AgentStateDB) r old,
      firstRow p db = some r → r.2.getLast? = some old →
      ∃ s', firstRow p (set_agent_completed ts p b db) = some (p, s') ∧
        s'.length = r.2.length ∧
        (∀ i : Nat, i + 1 < r.2.length → s'[i]? = r.2[i]?) ∧
        s'.getLast? = some { old with
          internal_monologue := "Agent has completed the task."
          completed := b } ∧
        (∀ q : String, ¬ q = p →
          firstRow q (set_agent_completed ts p b db) = firstRow q db)) ∧
    (∀ (ts p : String) (b : Bool) (db : AgentStateDB),
      firstRow p db = none →
      set_agent_completed ts p b db =
        db ++ [(p, [{ new_state ts with completed := b }])]) := by
  constructor
  · intro ts p b db r old h hold
    refine ⟨modifyLast (fun t =>
      { t with internal_monologue := "Agent has completed the task."
               completed := b }) r.2, ?_, modifyLast_length _ r.2, ?_, ?_, ?_⟩
    · simp only [set_agent_completed, h]
      rw [firstRow_updateFirstRow_self _ h, firstRow_key h]
    · intro i hi
      exact modifyLast_getElem? _ r.2 i hi
    · rw [modifyLast_getLast?, hold]
      rfl
    · intro q hq
      simp only [set_agent_completed, h]
      exact firstRow_updateFirstRow_ne _ hq
  · intro ts p b db h
    simp only [set_agent_completed, h]

/-- Witness for C4 amended: a project whose stack holds one default
snapshot. -/
theorem claim_C4_witness :
    ∃ s', firstRow "p" (set_agent_completed "ts" "p" true
        [("p", [new_state "t"])]) = some ("p", s') ∧
      s'.length = 1 ∧
      (∀ i : Nat, i + 1 < 1 → s'[i]? = [new_state "t"][i]?) ∧
      s'.getLast? = some { new_state "t" with
        internal_monologue := "Agent has completed the task."
        completed := true } ∧
      (∀ q : String, ¬ q = "p" →
        firstRow q (set_agent_completed "ts" "p" true
          [("p", [new_state "t"])]) = firstRow q [("p", [new_state "t"])]) :=
  claim_C4_amended.1 "ts" "p" true [("p", [new_state "t"])]
    ("p", [new_state "t"]) (new_state "t") rfl rfl
